import Mathlib

/-!
Verification of the `tetrs` core engine (`src/tetrs_engine/src/lib.rs` and
`src/tetrs_engine/src/piece_rotation.rs`) against its natural-language
specification.  The Rust code is shallowly embedded: `Duration`/`GameTime`
becomes whole nanoseconds as `Nat`, `u32` arithmetic is `Nat` reduced
modulo `2^32` at the operations the source performs, fallible or panicking
code returns `Option`, and the `HashMap<Event, GameTime>` event map becomes
a function `Event → Option GameTime` (at most one pending time per kind,
exactly as in the source).
-/

namespace Tetrs

/-- Game time: `pub type GameTime = Duration;`, modelled in whole nanoseconds. -/
abbrev GameTime := Nat

/-- `pub type Coord = (usize, usize);` -/
abbrev Coord := Nat × Nat

/-- `pub type Offset = (isize, isize);` -/
abbrev Offset := Int × Int

/-- `pub enum Orientation { N, E, S, W }` -/
inductive Orientation where
  | N
  | E
  | S
  | W
deriving DecidableEq, Repr

/-- `pub enum Tetromino { O, I, S, Z, T, L, J }` -/
inductive Tetromino where
  | O
  | I
  | S
  | Z
  | T
  | L
  | J
deriving DecidableEq, Repr

/-- `Orientation::rotate_r`: add `right_turns` quarter turns, wrapping modulo 4
(`rem_euclid`). -/
def Orientation.rotate_r (o : Orientation) (right_turns : Int) : Orientation :=
  let base : Int :=
    match o with
    | .N => 0
    | .E => 1
    | .S => 2
    | .W => 3
  match ((base + right_turns).emod 4).toNat with
  | 0 => .N
  | 1 => .E
  | 2 => .S
  | _ => .W

/-- `Tetromino::minos`: the four mino offsets of a shape in a given orientation. -/
def Tetromino.minos (t : Tetromino) (oriented : Orientation) : List Coord :=
  match t with
  | .O => [(0, 0), (1, 0), (0, 1), (1, 1)]
  | .I =>
    match oriented with
    | .N | .S => [(0, 0), (1, 0), (2, 0), (3, 0)]
    | .E | .W => [(0, 0), (0, 1), (0, 2), (0, 3)]
  | .S =>
    match oriented with
    | .N | .S => [(0, 0), (1, 0), (1, 1), (2, 1)]
    | .E | .W => [(1, 0), (0, 1), (1, 1), (0, 2)]
  | .Z =>
    match oriented with
    | .N | .S => [(1, 0), (2, 0), (0, 1), (1, 1)]
    | .E | .W => [(0, 0), (0, 1), (1, 1), (1, 2)]
  | .T =>
    match oriented with
    | .N => [(0, 0), (1, 0), (2, 0), (1, 1)]
    | .E => [(0, 0), (0, 1), (1, 1), (0, 2)]
    | .S => [(1, 0), (0, 1), (1, 1), (2, 1)]
    | .W => [(1, 0), (0, 1), (1, 1), (1, 2)]
  | .L =>
    match oriented with
    | .N => [(0, 0), (1, 0), (2, 0), (2, 1)]
    | .E => [(0, 0), (1, 0), (0, 1), (0, 2)]
    | .S => [(0, 0), (0, 1), (1, 1), (2, 1)]
    | .W => [(1, 0), (1, 1), (0, 2), (1, 2)]
  | .J =>
    match oriented with
    | .N => [(0, 0), (1, 0), (2, 0), (0, 1)]
    | .E => [(0, 0), (0, 1), (0, 2), (1, 2)]
    | .S => [(2, 0), (0, 1), (1, 1), (2, 1)]
    | .W => [(0, 0), (1, 0), (1, 1), (1, 2)]

/-- `Tetromino::tiletypeid`: `O=1, I=2, S=3, Z=4, T=5, L=6, J=7`. -/
def Tetromino.tiletypeid : Tetromino → Nat
  | .O => 1
  | .I => 2
  | .S => 3
  | .Z => 4
  | .T => 5
  | .L => 6
  | .J => 7

/-- `pub struct ActivePiece { shape, orientation, pos }` -/
structure ActivePiece where
  shape : Tetromino
  orientation : Orientation
  pos : Coord
deriving DecidableEq, Repr

/-- `pub fn add((x0, y0): Coord, (x1, y1): Offset) -> Option<Coord>` using
`checked_add_signed`: fails on underflow below zero. -/
def add (c : Coord) (o : Offset) : Option Coord :=
  if 0 ≤ (c.1 : Int) + o.1 ∧ 0 ≤ (c.2 : Int) + o.2 then
    some (((c.1 : Int) + o.1).toNat, ((c.2 : Int) + o.2).toNat)
  else
    none

/-- Board width: `pub const WIDTH: usize = 10;` -/
def WIDTH : Nat := 10

/-- `pub const SKYLINE: usize = 20;` -/
def SKYLINE : Nat := 20

/-- `pub const HEIGHT: usize = Self::SKYLINE + 7;` -/
def HEIGHT : Nat := SKYLINE + 7

/-- `pub type Line = [Option<TileTypeID>; Game::WIDTH];` -/
abbrev Line := List (Option Nat)

/-- `pub type Board = Vec<Line>;` -/
abbrev Board := List Line

/-- Cell lookup `board[y][x]`; on a well-formed board (27 lines of 10 cells)
all source accesses are in bounds, guarded by the `x < WIDTH && y < HEIGHT`
checks that precede them. -/
def cellAt (b : Board) (x y : Nat) : Option Nat :=
  (b.getD y []).getD x none

/-- `ActivePiece::tiles`: the four occupied cells with their tile type id. -/
def ActivePiece.tiles (p : ActivePiece) : List (Coord × Nat) :=
  (p.shape.minos p.orientation).map fun d =>
    ((p.pos.1 + d.1, p.pos.2 + d.2), p.shape.tiletypeid)

/-- `ActivePiece::fits`: all four tiles in bounds and on empty cells. -/
def ActivePiece.fits (p : ActivePiece) (board : Board) : Bool :=
  p.tiles.all fun tc =>
    decide (tc.1.1 < WIDTH) && decide (tc.1.2 < HEIGHT) && (cellAt board tc.1.1 tc.1.2).isNone

/-- `ActivePiece::fits_at`: translate by `offset` (failing on coordinate
underflow) then test `fits`. -/
def ActivePiece.fits_at (p : ActivePiece) (board : Board) (offset : Offset) :
    Option ActivePiece :=
  (add p.pos offset).bind fun newPos =>
    let newPiece : ActivePiece := { p with pos := newPos }
    if newPiece.fits board then some newPiece else none

/-- `ActivePiece::fits_at_rotated`: rotate the orientation, translate, test `fits`. -/
def ActivePiece.fits_at_rotated (p : ActivePiece) (board : Board) (offset : Offset)
    (right_turns : Int) : Option ActivePiece :=
  (add p.pos offset).bind fun newPos =>
    let newPiece : ActivePiece :=
      { p with orientation := p.orientation.rotate_r right_turns, pos := newPos }
    if newPiece.fits board then some newPiece else none

/-- `ActivePiece::first_fit`: rotate the orientation by `right_turns`, then
return the first offset under which the piece fits (offsets that underflow a
coordinate are skipped, as by the `?` inside the source's `find_map` closure). -/
def ActivePiece.first_fit (p : ActivePiece) (board : Board) (offsets : List Offset)
    (right_turns : Int) : Option ActivePiece :=
  let newOrientation := p.orientation.rotate_r right_turns
  offsets.findSome? fun offset =>
    (add p.pos offset).bind fun newPos =>
      let newPiece : ActivePiece := { p with orientation := newOrientation, pos := newPos }
      if newPiece.fits board then some newPiece else none

/-- `ActivePiece::well_piece`: move the piece down while it still fits. -/
def ActivePiece.well_piece (p : ActivePiece) (board : Board) : ActivePiece :=
  match h : p.fits_at board (0, -1) with
  | some pieceBelow => pieceBelow.well_piece board
  | none => p
termination_by p.pos.2
decreasing_by
  -- a successful `fits_at (0, -1)` moves the piece exactly one cell down
  unfold ActivePiece.fits_at add at h
  by_cases hc : 0 ≤ (p.pos.1 : Int) + 0 ∧ 0 ≤ (p.pos.2 : Int) + (-1)
  · obtain ⟨hc1, hc2⟩ := hc
    simp only [hc1, hc2, and_self, if_true, Option.some_bind] at h
    split at h
    · injection h with h2
      rw [← h2]
      show (((p.pos.2 : Int) + -1).toNat) < p.pos.2
      omega
    · exact Option.noConfusion h
  · simp only [hc, if_false, Option.bind_none] at h
    exact Option.noConfusion h

/-- `pub enum Event { LineClear, Spawn, Lock, LockTimer, HardDrop, SoftDrop,
MoveSlow, MoveFast, Rotate, Fall }` -/
inductive Event where
  | LineClear
  | Spawn
  | Lock
  | LockTimer
  | HardDrop
  | SoftDrop
  | MoveSlow
  | MoveFast
  | Rotate
  | Fall
deriving DecidableEq, Repr

/-- The declaration-order rank used by the derived `Ord` on `Event`
(deterministic tie-breaker of the scheduler). -/
def Event.rank : Event → Nat
  | .LineClear => 0
  | .Spawn => 1
  | .Lock => 2
  | .LockTimer => 3
  | .HardDrop => 4
  | .SoftDrop => 5
  | .MoveSlow => 6
  | .MoveFast => 7
  | .Rotate => 8
  | .Fall => 9

/-- All ten event kinds, in declaration order. -/
def allEvents : List Event :=
  [.LineClear, .Spawn, .Lock, .LockTimer, .HardDrop, .SoftDrop, .MoveSlow,
   .MoveFast, .Rotate, .Fall]

def EventMap : Type := Event → Option GameTime

/-- `HashMap::insert` (overwrites any pending entry of the same kind). -/
def EventMap.insert (m : EventMap) (e : Event) (t : GameTime) : EventMap :=
  fun e' => if e' = e then some t else m e'

/-- `HashMap::remove`. -/
def EventMap.remove (m : EventMap) (e : Event) : EventMap :=
  fun e' => if e' = e then none else m e'

/-- `HashMap::clear`. -/
def EventMap.clear : EventMap := fun _ => none

/-- `HashMap::contains_key`. -/
def EventMap.contains (m : EventMap) (e : Event) : Bool := (m e).isSome

/-- The pending `(event, time)` entries of the map, enumerated in kind order. -/
def EventMap.entries (m : EventMap) : List (Event × GameTime) :=
  allEvents.filterMap fun e => (m e).map fun t => (e, t)

/-- One step of `min_by_key(|(&event, &event_time)| (event_time, event))`:
keep the incumbent unless the candidate is strictly smaller in the
lexicographic `(time, kind-rank)` order (Rust's `min` keeps the first of
equally minimal elements; here keys are distinct anyway). -/
def minStep (acc : Option (Event × GameTime)) (x : Event × GameTime) :
    Option (Event × GameTime) :=
  match acc with
  | none => some x
  | some y =>
    if x.2 < y.2 ∨ (x.2 = y.2 ∧ x.1.rank < y.1.rank) then some x else some y

/-- `self.state.events.iter().min_by_key(|(&event, &event_time)| (event_time, event))`. -/
def EventMap.minEntry (m : EventMap) : Option (Event × GameTime) :=
  m.entries.foldl minStep none

/-- `pub enum GameOver { LockOut, BlockOut }` -/
inductive GameOver where
  | LockOut
  | BlockOut
deriving DecidableEq, Repr

/-- `pub enum Stat { Time, Pieces, Lines, Level, Score }` (durations in
nanoseconds, `NonZeroU32`/`u32`/`usize` as `Nat`). -/
inductive Stat where
  | Time (d : GameTime)
  | Pieces (n : Nat)
  | Lines (n : Nat)
  | Level (n : Nat)
  | Score (n : Nat)
deriving DecidableEq, Repr

/-- `pub struct Gamemode { name, start_level, increment_level, limit, optimize }` -/
structure Gamemode where
  name : String
  start_level : Nat
  increment_level : Bool
  limit : Option Stat
  optimize : Stat
deriving DecidableEq, Repr

/-- `pub enum RotationSystem { Ocular, Classic, Super }`
(`src/tetrs_engine/src/piece_rotation.rs`). -/
inductive RotationSystem where
  | Ocular
  | Classic
  | Super
deriving DecidableEq, Repr

/-- Modelled from the spec: `tetromino_generators.rs` draws shapes through a
thread-local RNG, which has no place in a deterministic embedding.  The spec
(§4.B) requires only "a restartable, potentially stateful producer of an
infinite sequence of shapes", so the generator is modelled as an arbitrary
infinite stream together with a cursor. -/
structure TetrominoGenerator where
  stream : Nat → Tetromino
  cursor : Nat

/-- `Iterator::take(n)` on the generator: the next `n` shapes, advancing it. -/
def TetrominoGenerator.take (g : TetrominoGenerator) (n : Nat) :
    List Tetromino × TetrominoGenerator :=
  ((List.range n).map fun i => g.stream (g.cursor + i),
   { g with cursor := g.cursor + n })

/-- `pub type ButtonsPressed = [bool; 7];`, with the component names of the
`Button` enum order (`MoveLeft, MoveRight, RotateLeft, RotateRight,
RotateAround, DropSoft, DropHard`), as destructured in `handle_input_events`. -/
structure ButtonsPressed where
  mL : Bool
  mR : Bool
  rL : Bool
  rR : Bool
  rA : Bool
  dS : Bool
  dH : Bool
deriving DecidableEq, Repr

/-- `pub struct LockingData` (durations in nanoseconds). -/
structure LockingData where
  touches_ground : Bool
  last_touchdown : Option GameTime
  last_liftoff : Option GameTime
  ground_time_left : Nat
  lowest_y : Nat
deriving DecidableEq, Repr

/-- `pub enum FeedbackEvent` (u32 fields as `Nat`). -/
inductive FeedbackEvent where
  | PieceLocked (p : ActivePiece)
  | LineClears (ys : List Nat) (delay : GameTime)
  | HardDrop (before afterDrop : ActivePiece)
  | Accolade (score_bonus : Nat) (shape : Tetromino) (spin : Bool)
      (lineclears : Nat) (perfect_clear : Bool) (combo : Nat) (opportunity : Nat)
  | Debug (msg : String)
deriving DecidableEq, Repr

/-- `pub struct GameConfig` (durations in nanoseconds).  `soft_drop_factor` is
an `f64` in the source (default `15.0`); it only scales the fall delay while
soft-dropping, which no claim depends on, and is modelled as a `Nat` divisor. -/
structure GameConfig where
  gamemode : Gamemode
  rotation_system : RotationSystem
  tetromino_generator : TetrominoGenerator
  preview_count : Nat
  delayed_auto_shift : GameTime
  auto_repeat_rate : GameTime
  soft_drop_factor : Nat
  hard_drop_delay : GameTime
  ground_time_max : GameTime
  line_clear_delay : GameTime
  appearance_delay : GameTime

/-- `pub struct GameState`.  `pieces_played: [u32; 7]` is indexed through the
`ops::Index<Tetromino>` impl, so it is modelled as a function from shapes. -/
structure GameState where
  game_time : GameTime
  finished : Option (Except GameOver Unit)
  events : EventMap
  buttons_pressed : ButtonsPressed
  board : Board
  active_piece_data : Option (ActivePiece × LockingData)
  next_pieces : List Tetromino
  pieces_played : Tetromino → Nat
  lines_cleared : List Line
  level : Nat
  score : Nat
  consecutive_line_clears : Nat
  back_to_back_special_clears : Nat

/-- `pub struct Game { state, config }` -/
structure Game where
  state : GameState
  config : GameConfig

/-- `u32` modulus. -/
def U32MOD : Nat := 4294967296

/-- `u32` addition (release-mode wrapping semantics). -/
def u32add (a b : Nat) : Nat := (a + b) % U32MOD

/-- `u32` multiplication (release-mode wrapping semantics). -/
def u32mul (a b : Nat) : Nat := (a * b) % U32MOD

/-- `const LEVEL_20G: NonZeroU32 = 19;` -/
def LEVEL_20G : Nat := 19

/-- `Game::drop_delay`: nanoseconds of fall delay per level. -/
def drop_delay (level : Nat) : GameTime :=
  match level with
  | 1 => 1000000000
  | 2 => 793000000
  | 3 => 617796000
  | 4 => 472729139
  | 5 => 355196928
  | 6 => 262003550
  | 7 => 189677245
  | 8 => 134734731
  | 9 => 93882249
  | 10 => 64151585
  | 11 => 42976258
  | 12 => 28217678
  | 13 => 18153329
  | 14 => 11439342
  | 15 => 7058616
  | 16 => 4263557
  | 17 => 2520084
  | 18 => 1457139
  | _ => 823907

/-- `Game::lock_delay`: `Duration::from_millis(...)` per level, in nanoseconds.
The source matches `1..=19 => 500`; the state's level is a `NonZeroU32`, so
level `0` cannot occur. -/
def lock_delay (level : Nat) : GameTime :=
  1000000 *
    (if level ≤ 19 then 500
     else match level with
      | 20 => 450
      | 21 => 400
      | 22 => 350
      | 23 => 300
      | 24 => 250
      | 25 => 200
      | 26 => 195
      | 27 => 184
      | 28 => 167
      | 29 => 151
      | _ => 150)

/-- `Game::handle_input_events`: diff the previous and next button vectors and
insert/remove pending input events at `update_time`. -/
def handle_input_events (events : EventMap) (prev next : ButtonsPressed)
    (update_time : GameTime) : EventMap :=
  let events :=
    -- No buttons pressed -> one button pressed, add initial move.
    if (!prev.mL && !prev.mR) && (next.mL != next.mR) then
      events.insert .MoveSlow update_time
    -- One/Two buttons pressed -> different/one button pressed, (re-)add fast repeat move.
    else if (prev.mL && (!next.mL && next.mR)) || (prev.mR && (next.mL && !next.mR)) then
      (events.remove .MoveFast).insert .MoveFast update_time
    -- Single button pressed -> both (un)pressed, remove future moves.
    else if (prev.mL != prev.mR) && (next.mL == next.mR) then
      events.remove .MoveFast
    else events
  let events :=
    -- Either a 180 rotation, or a single L/R rotation button was pressed.
    if (!prev.rA && next.rA) ||
        (((!prev.rR && next.rR) || (!prev.rL && next.rL)) &&
          (prev.rL || prev.rR || !next.rR || !next.rL)) then
      events.insert .Rotate update_time
    else events
  let events :=
    -- Soft drop button pressed.
    if !prev.dS && next.dS then events.insert .SoftDrop update_time else events
  -- Hard drop button pressed.
  if !prev.dH && next.dH then events.insert .HardDrop update_time else events

/-- The `mirrored_orientation` of `ocular_rotate`: `N→N, E→W, S→S, W→E`. -/
def mirroredOrientation : Orientation → Orientation
  | .N => .N
  | .E => .W
  | .S => .S
  | .W => .E

/-- `ocular_rotate` 180° kick table for `S` (also used mirrored for `Z`). -/
def ocular_180_S : Orientation → List Offset
  | .N | .S => [(-1, -1), (0, 0)]
  | .E | .W => [(1, -1), (0, 0)]

/-- `ocular_rotate` 180° kick table for `L` (also used, at the mirrored
orientation, for `J`). -/
def ocular_180_L : Orientation → List Offset
  | .N => [(0, -1), (1, -1), (-1, -1), (0, 0), (1, 0)]
  | .E => [(-1, 0), (-1, -1), (0, 0), (0, -1)]
  | .S => [(0, 1), (0, 0), (-1, 1), (-1, 0)]
  | .W => [(1, 0), (0, 0), (1, -1), (1, 1), (0, 1)]

/-- The `'lookup_kicks` loop of `ocular_rotate`'s 180° case, flattened: the
result is `(mirror, kick_table)`.  `Z` defers to mirrored `S`; `T·W` defers to
mirrored `T·E`; `J` defers to mirrored `L` at the mirrored orientation. -/
def ocular_180_lookup (shape : Tetromino) (o : Orientation) : Bool × List Offset :=
  match shape with
  | .O | .I => (false, [(0, 0)])
  | .S => (false, ocular_180_S o)
  | .Z => (true, ocular_180_S o)
  | .T =>
    match o with
    | .N => (false, [(0, -1), (0, 0)])
    | .E => (false, [(-1, 0), (0, 0), (-1, -1)])
    | .S => (false, [(0, 1), (0, 0), (0, -1)])
    | .W => (true, [(-1, 0), (0, 0), (-1, -1)])
  | .L => (false, ocular_180_L o)
  | .J => (true, ocular_180_L (mirroredOrientation o))

/-- `ocular_rotate` 90° left kick table for `O` (used mirrored for right turns). -/
def ocular_90_O_left : List Offset := [(-1, 0), (-1, -1), (-1, 1), (0, 0)]

/-- `ocular_rotate` 90° left kick tables for `I` (used mirrored for right turns). -/
def ocular_90_I_left : Orientation → List Offset
  | .N | .S =>
    [(1, -1), (1, -2), (1, -3), (0, -1), (0, -2), (0, -3), (1, 0), (0, 0), (2, -1), (2, -2)]
  | .E | .W => [(-2, 1), (-3, 1), (-2, 0), (-3, 0), (-1, 1), (0, 1)]

/-- `ocular_rotate` 90° kick tables for `S` (also used mirrored for `Z` with
the turn direction flipped). -/
def ocular_90_S (o : Orientation) (left : Bool) : List Offset :=
  match o with
  | .N | .S =>
    if left then [(0, 0), (0, -1), (1, 0), (-1, -1)]
    else [(1, 0), (1, -1), (1, 1), (0, 0), (0, -1)]
  | .E | .W =>
    if left then [(-1, 0), (0, 0), (-1, -1), (-1, 1), (0, 1)]
    else [(0, 0), (-1, 0), (0, -1), (1, 0), (0, 1), (-1, 1)]

/-- `ocular_rotate` 90° left kick tables for `T` (right turns use the mirrored
table at the mirrored orientation). -/
def ocular_90_T_left : Orientation → List Offset
  | .N => [(0, -1), (0, 0), (-1, -1), (1, -1), (-1, -2), (1, 0)]
  | .E => [(-1, 1), (-1, 0), (0, 1), (0, 0), (-1, -1), (-1, 2)]
  | .S => [(1, 0), (0, 0), (1, -1), (0, -1), (1, -2), (2, 0)]
  | .W => [(0, 0), (-1, 0), (0, -1), (-1, -1), (1, -1), (0, 1), (-1, 1)]

/-- `ocular_rotate` 90° kick tables for `L` (also used mirrored for `J` at the
mirrored orientation with the turn direction flipped). -/
def ocular_90_L (o : Orientation) (left : Bool) : List Offset :=
  match o with
  | .N =>
    if left then [(0, -1), (1, -1), (0, -2), (1, -2), (0, 0), (1, 0)]
    else [(1, -1), (1, 0), (1, -1), (2, 0), (0, -1), (0, 0)]
  | .E =>
    if left then [(-1, 1), (-1, 0), (-2, 1), (-2, 0), (0, 0), (0, 1)]
    else [(-1, 0), (0, 0), (0, -1), (-1, -1), (0, 1), (-1, 1)]
  | .S =>
    if left then [(1, 0), (0, 0), (1, -1), (0, -1), (0, 1), (1, 1)]
    else [(0, 0), (0, -1), (1, -1), (-1, -1), (1, 0), (-1, 0), (0, 1)]
  | .W =>
    if left then [(0, 0), (-1, 0), (0, 1), (1, 0), (-1, 1), (1, 1), (0, -1), (-1, -1)]
    else [(0, 1), (-1, 1), (0, 0), (-1, 0), (0, 2), (-1, 2)]

/-- The `'lookup_kicks` loop of `ocular_rotate`'s 90° case, flattened: the
result is `(mirror, kick_table)` where `mirror = some mx` maps each kick
`(x, y)` to `(mx - x, y)`.  Right turns for `O`, `I`, `T` defer to the mirror
of the left table; `Z` defers to mirrored `S` with the direction flipped; `J`
defers to mirrored `L` at the mirrored orientation with the direction flipped. -/
def ocular_90_lookup (shape : Tetromino) (o : Orientation) (left : Bool) :
    Option Int × List Offset :=
  match shape with
  | .O => if left then (none, ocular_90_O_left) else (some 0, ocular_90_O_left)
  | .I =>
    if left then (none, ocular_90_I_left o)
    else (some (match o with | .N | .S => 3 | .E | .W => -3), ocular_90_I_left o)
  | .S => (none, ocular_90_S o left)
  | .Z => (some (match o with | .N | .S => 1 | .E | .W => -1), ocular_90_S o (!left))
  | .T =>
    if left then (none, ocular_90_T_left o)
    else (some (match o with | .N | .S => 1 | .E | .W => -1),
          ocular_90_T_left (mirroredOrientation o))
  | .L => (none, ocular_90_L o left)
  | .J =>
    (some (match o with | .N | .S => 1 | .E | .W => -1),
     ocular_90_L (mirroredOrientation o) (!left))

/-- `fn ocular_rotate(piece, board, right_turns) -> Option<ActivePiece>`.
`right_turns.rem_euclid(4)` selects no rotation, 180°, or a 90° turn
(`3` is a left turn; values `≥ 4` cannot arise). -/
def ocular_rotate (piece : ActivePiece) (board : Board) (right_turns : Int) :
    Option ActivePiece :=
  match (right_turns.emod 4).toNat with
  | 0 => some piece
  | 2 =>
    let ml := ocular_180_lookup piece.shape piece.orientation
    let kicks := ml.2.map fun xy => if ml.1 then (-xy.1, xy.2) else xy
    piece.first_fit board kicks right_turns
  | n =>
    let left := n == 3
    let ml := ocular_90_lookup piece.shape piece.orientation left
    let kicks := ml.2.map fun xy =>
      match ml.1 with
      | some mx => (mx - xy.1, xy.2)
      | none => xy
    piece.first_fit board kicks right_turns

/-- `fn super_rotate(piece, board, right_turns) -> Option<ActivePiece>`. -/
def super_rotate (piece : ActivePiece) (board : Board) (right_turns : Int) :
    Option ActivePiece :=
  match (right_turns.emod 4).toNat with
  | 0 => some piece
  | 2 =>
    let kick_table : List Offset :=
      match piece.shape with
      | .O | .I | .S | .Z => [(0, 0)]
      | .T | .L | .J =>
        match piece.orientation with
        | .N => [(0, -1), (0, 0)]
        | .E => [(-1, 0), (0, 0)]
        | .S => [(0, 1), (0, 0)]
        | .W => [(1, 0), (0, 0)]
    piece.first_fit board kick_table 2
  | n =>
    let left := n == 3
    let kick_table : List Offset :=
      match piece.shape with
      | .O => [(0, 0)]
      | .I =>
        match piece.orientation with
        | .N =>
          if left then [(1, -2), (0, -2), (3, -2), (0, 0), (3, -3)]
          else [(2, -2), (0, -2), (3, -2), (0, -3), (3, 0)]
        | .E =>
          if left then [(-2, 2), (0, 2), (-3, 2), (0, 3), (-3, 0)]
          else [(2, -1), (-3, 1), (0, 1), (-3, 3), (0, 0)]
        | .S =>
          if left then [(2, -1), (3, -1), (0, -1), (3, -3), (0, 0)]
          else [(1, -1), (3, -1), (0, -1), (3, 0), (0, -3)]
        | .W =>
          if left then [(-1, 1), (-3, 1), (0, 1), (-3, 0), (0, 3)]
          else [(-1, 2), (0, 2), (-3, 2), (0, 0), (-3, 3)]
      | .S | .Z | .T | .L | .J =>
        match piece.orientation with
        | .N =>
          if left then [(0, -1), (1, -1), (1, 0), (0, -3), (1, -3)]
          else [(1, -1), (0, -1), (0, 0), (1, -3), (0, -3)]
        | .E =>
          if left then [(-1, 1), (0, 1), (0, 0), (-1, 3), (0, 3)]
          else [(-1, 0), (0, 0), (0, -1), (-1, 2), (0, 2)]
        | .S =>
          if left then [(1, 0), (0, 0), (-1, 1), (1, -2), (0, -2)]
          else [(0, 0), (1, 0), (1, 1), (0, -2), (1, -2)]
        | .W =>
          if left then [(0, 0), (-1, 0), (-1, -1), (0, 2), (-1, 2)]
          else [(0, 1), (-1, 1), (-1, 0), (0, 3), (-1, 3)]
    piece.first_fit board kick_table right_turns

/-- `fn classic_rotate(piece, board, right_turns) -> Option<ActivePiece>`. -/
def classic_rotate (piece : ActivePiece) (board : Board) (right_turns : Int) :
    Option ActivePiece :=
  match (right_turns.emod 4).toNat with
  | 0 => some piece
  | 2 => piece.fits_at_rotated board (0, 0) 2
  | n =>
    let left_rotation := n == 3
    let kick : Offset :=
      match piece.shape with
      | .O => (0, 0)
      | .I =>
        match piece.orientation with
        | .N | .S => (2, -1)
        | .E | .W => (-2, 1)
      | .S | .Z =>
        match piece.orientation with
        | .N | .S => (1, 0)
        | .E | .W => (-1, 0)
      | .T | .L | .J =>
        match piece.orientation with
        | .N => if left_rotation then (0, -1) else (1, -1)
        | .E => if left_rotation then (-1, 1) else (-1, 0)
        | .S => if left_rotation then (1, 0) else (0, 0)
        | .W => if left_rotation then (0, 0) else (0, 1)
    piece.fits_at_rotated board kick right_turns

/-- `RotationSystem::rotate`: dispatch to the chosen rotation system. -/
def RotationSystem.rotate (rs : RotationSystem) (piece : ActivePiece)
    (board : Board) (right_turns : Int) : Option ActivePiece :=
  match rs with
  | .Ocular => ocular_rotate piece board right_turns
  | .Classic => classic_rotate piece board right_turns
  | .Super => super_rotate piece board right_turns

/-- Modelled from the spec: `RotationSystem::place_initial` lives in the
`rotation_systems` module, which is not under `src/` (only the older
`piece_rotation.rs` is).  The spec says a spawned piece is generated above the
skyline (§3 Lifecycle; scenario 1 spawns at `(4, SKYLINE)`), so initial
placement is modelled as orientation `N` at `(4, SKYLINE)`.  No claim depends
on the exact placement. -/
def RotationSystem.place_initial (_rs : RotationSystem) (shape : Tetromino) :
    ActivePiece :=
  { shape := shape, orientation := .N, pos := (4, SKYLINE) }

/-- `Game::calculate_locking_data`.  The source mutates `self.state.events`
(removing or scheduling `LockTimer`), so the model returns the new locking
data together with the updated event map.  The source `unwrap`s invariants
(`last_liftoff`, `last_touchdown` present); those are modelled as `none`. -/
def calculate_locking_data (cfg : GameConfig) (level : Nat) (events : EventMap)
    (event : Event) (event_time : GameTime)
    (prev_piece_data : Option (ActivePiece × LockingData))
    (next_piece : ActivePiece) (touches_ground : Bool) :
    Option (LockingData × EventMap) :=
  match prev_piece_data, touches_ground with
  -- [1] Newly spawned piece does not touch ground.
  | none, false =>
    some ({ touches_ground := false, last_touchdown := none,
            last_liftoff := some event_time,
            ground_time_left := cfg.ground_time_max,
            lowest_y := next_piece.pos.2 }, events)
  | some (_prev_piece, prev_locking_data), false =>
    if prev_locking_data.touches_ground then
      -- [2] Active piece lifted off the ground: remove any pending `LockTimer`.
      some ({ prev_locking_data with
                touches_ground := false,
                last_liftoff := some event_time }, events.remove .LockTimer)
    else
      -- [4] No change to state (afloat before and after).
      some (prev_locking_data, events)
  -- [3] A piece is on the ground.  Complex update to locking values.
  | prev_piece_data, true =>
    let next_locking_data? : Option LockingData :=
      match prev_piece_data with
      -- If previous piece exists and next piece has not reached a new low (i.e. not a reset situation).
      | some (_prev_piece, prev_locking_data) =>
        if next_piece.pos.2 ≥ prev_locking_data.lowest_y then
          -- Previously touched ground already, just continue previous data.
          if prev_locking_data.touches_ground then
            some prev_locking_data
          else
            match prev_locking_data.last_liftoff with
            | none => none
            | some last_liftoff =>
              match prev_locking_data.last_touchdown with
              -- Piece was afloat before with valid last touchdown as well.
              | some last_touchdown =>
                if event_time - last_liftoff ≤ 2 * drop_delay level then
                  some { touches_ground := true,
                         last_touchdown := prev_locking_data.last_touchdown,
                         last_liftoff := none,
                         ground_time_left := prev_locking_data.ground_time_left,
                         lowest_y := prev_locking_data.lowest_y }
                else
                  let elapsed_ground_time := last_liftoff - last_touchdown
                  some { touches_ground := true,
                         last_touchdown := some event_time,
                         last_liftoff := none,
                         ground_time_left :=
                           prev_locking_data.ground_time_left - elapsed_ground_time,
                         lowest_y := prev_locking_data.lowest_y }
              -- No last touchdown: just set touchdown.
              | none =>
                some { prev_locking_data with
                         touches_ground := true,
                         last_touchdown := some event_time }
        else
          -- Piece reached a new lowest: completely reset locking data.
          some { touches_ground := true, last_touchdown := some event_time,
                 last_liftoff := none, ground_time_left := cfg.ground_time_max,
                 lowest_y := next_piece.pos.2 }
      -- Newly generated piece directly spawned on the stack.
      | none =>
        some { touches_ground := true, last_touchdown := some event_time,
               last_liftoff := none, ground_time_left := cfg.ground_time_max,
               lowest_y := next_piece.pos.2 }
    match next_locking_data? with
    | none => none
    | some next_locking_data =>
      -- Set lock timer if there is not one, or refresh it if the piece was moved.
      let repositioned : Bool :=
        match prev_piece_data with
        | some (prev_piece, _) => decide (prev_piece ≠ next_piece)
        | none => false
      let move_rotate : Bool :=
        decide (event = .Rotate ∨ event = .MoveSlow ∨ event = .MoveFast)
      if !(events.contains .LockTimer) || (repositioned && move_rotate) then
        match next_locking_data.last_touchdown with
        | none => none
        | some last_touchdown =>
          let current_ground_time := event_time - last_touchdown
          let remaining_ground_time :=
            next_locking_data.ground_time_left - current_ground_time
          let lock_timer := min (lock_delay level) remaining_ground_time
          some (next_locking_data, events.insert .LockTimer (event_time + lock_timer))
      else
        some (next_locking_data, events)

/-- `board[y][x] = v` (a `List.set`-style write; all source writes are within
the board bounds, guarded by the `fits` invariant of the active piece). -/
def setCell (b : Board) (x y : Nat) (v : Option Nat) : Board :=
  b.set y ((b.getD y []).set x v)

/-- The board-stamping loop of the `Lock` handler:
`for ((x, y), tile_type_id) in prev_piece.tiles() { board[y][x] = Some(id) }`. -/
def stampPiece (b : Board) (p : ActivePiece) : Board :=
  p.tiles.foldl (fun acc tc => setCell acc tc.1.1 tc.1.2 (some tc.2)) b

/-- The line-scan of the `Lock` handler: indices of complete rows, collected
for `y in (0..HEIGHT).rev()` (so in descending order). -/
def completedRows (b : Board) : List Nat :=
  (List.range HEIGHT).reverse.filter fun y =>
    (b.getD y []).all fun mino => mino.isSome

/-- The row-removal loop of the `LineClear` handler: scan `y` descending; a
full row is moved to the cleared-lines storage and an empty line is pushed on
top of the board. -/
def line_clear_pass (b : Board) (cleared : List Line) : Board × List Line :=
  (List.range HEIGHT).reverse.foldl
    (fun acc y =>
      if (acc.1.getD y []).all (fun mino => mino.isSome) then
        (acc.1.eraseIdx y ++ [List.replicate WIDTH none], acc.2 ++ [acc.1.getD y []])
      else acc)
    (b, cleared)

/-- A feedback entry `(GameTime, FeedbackEvent)`. -/
abbrev Feedback := GameTime × FeedbackEvent

/-- The common tail of `Game::handle_event`:
`self.state.active_piece_data = next_piece.map(|p| (p, self.calculate_locking_data(...)))`. -/
def finish_piece (cfg : GameConfig) (s : GameState) (event : Event)
    (event_time : GameTime) (prev_piece_data : Option (ActivePiece × LockingData))
    (feedback : List Feedback) (next_piece : Option ActivePiece) :
    Option (Except (GameOver × Game) (List Feedback × Game)) :=
  match next_piece with
  | none =>
    some (.ok (feedback, { state := { s with active_piece_data := none }, config := cfg }))
  | some np =>
    match calculate_locking_data cfg s.level s.events event event_time
        prev_piece_data np ((np.fits_at s.board (0, -1)).isNone) with
    | none => none
    | some (ld, events') =>
      some (.ok (feedback,
        { state := { s with active_piece_data := some (np, ld), events := events' },
          config := cfg }))

/-- `Game::handle_event`.  Panicking paths (`expect`/`debug_assert` on
internal invariants) are modelled as `none`; a game-over return carries the
game as mutated so far, exactly as the source leaves `&mut self`. -/
def handle_event (g : Game) (event : Event) (event_time : GameTime) :
    Option (Except (GameOver × Game) (List Feedback × Game)) :=
  let s := g.state
  let cfg := g.config
  let prev_piece_data := s.active_piece_data
  let prev_piece := prev_piece_data.map Prod.fst
  match event with
  -- We generate a new piece above the skyline, and immediately queue a fall event for it.
  | .Spawn =>
    -- `debug_assert!(prev_piece.is_none(), ...)`
    if prev_piece.isSome then none
    else
      let n_required_pieces := 1 + (cfg.preview_count - s.next_pieces.length)
      let taken := cfg.tetromino_generator.take n_required_pieces
      let cfg' := { cfg with tetromino_generator := taken.2 }
      match s.next_pieces ++ taken.1 with
      | [] => none
      | tetromino :: rest =>
        let next_piece := cfg'.rotation_system.place_initial tetromino
        let s₁ := { s with next_pieces := rest }
        -- Newly spawned piece conflicts with board - Game over.
        if next_piece.fits s₁.board = false then
          some (.error (GameOver.BlockOut, { state := s₁, config := cfg' }))
        else
          let s₂ := { s₁ with
            pieces_played := fun t =>
              if t = tetromino then u32add (s₁.pieces_played t) 1 else s₁.pieces_played t,
            events :=
              if s₁.buttons_pressed.mL || s₁.buttons_pressed.mR then
                (s₁.events.insert .Fall event_time).insert .MoveFast event_time
              else
                s₁.events.insert .Fall event_time }
          finish_piece cfg' s₂ event event_time prev_piece_data [] (some next_piece)
  | .Rotate =>
    match prev_piece with
    | none => none
    | some prev_piece =>
      -- Special 20G fall immediately after.
      let s₁ :=
        if s.level ≥ LEVEL_20G then
          { s with events := s.events.insert .Fall event_time }
        else s
      let rotation : Int :=
        (if s.buttons_pressed.rL then -1 else 0) +
        (if s.buttons_pressed.rR then 1 else 0) +
        (if s.buttons_pressed.rA then 2 else 0)
      let next_piece := (cfg.rotation_system.rotate prev_piece s.board rotation).getD prev_piece
      finish_piece cfg s₁ event event_time prev_piece_data [] (some next_piece)
  -- Handle move attempt and auto repeat move.
  | .MoveSlow | .MoveFast =>
    match prev_piece with
    | none => none
    | some prev_piece =>
      -- Special 20G fall immediately after.
      let s₁ :=
        if s.level ≥ LEVEL_20G then
          { s with events := s.events.insert .Fall event_time }
        else s
      let move_delay :=
        if event = Event.MoveSlow then cfg.delayed_auto_shift else cfg.auto_repeat_rate
      let s₂ := { s₁ with events := s₁.events.insert .MoveFast (event_time + move_delay) }
      let dx : Int := if s.buttons_pressed.mL then -1 else 1
      let next_piece := (prev_piece.fits_at s.board (dx, 0)).getD prev_piece
      finish_piece cfg s₂ event event_time prev_piece_data [] (some next_piece)
  | .Fall | .SoftDrop =>
    match prev_piece with
    | none => none
    | some prev_piece =>
      if s.level ≥ LEVEL_20G then
        finish_piece cfg s event event_time prev_piece_data []
          (some (prev_piece.well_piece s.board))
      else
        -- (`Duration::from_secs_f64(drop_delay / soft_drop_factor)` in the source.)
        let dd :=
          if s.buttons_pressed.dS then drop_delay s.level / cfg.soft_drop_factor
          else drop_delay s.level
        match prev_piece.fits_at s.board (0, -1) with
        -- Try to move active piece down.
        | some dropped_piece =>
          finish_piece cfg { s with events := s.events.insert .Fall (event_time + dd) }
            event event_time prev_piece_data [] (some dropped_piece)
        | none =>
          -- Piece hit ground but SoftDrop was pressed.
          if event = Event.SoftDrop then
            finish_piece cfg { s with events := s.events.insert .Lock event_time }
              event event_time prev_piece_data [] (some prev_piece)
          -- Piece hit ground and tried to drop naturally: try falling again later.
          else
            finish_piece cfg { s with events := s.events.insert .Fall (event_time + dd) }
              event event_time prev_piece_data [] (some prev_piece)
  | .HardDrop =>
    match prev_piece with
    | none => none
    | some prev_piece =>
      -- Move piece all the way down.
      let dropped_piece := prev_piece.well_piece s.board
      let feedback := [(event_time, FeedbackEvent.HardDrop prev_piece dropped_piece)]
      let s₁ :=
        { s with events := s.events.insert .LockTimer (event_time + cfg.hard_drop_delay) }
      finish_piece cfg s₁ event event_time prev_piece_data feedback (some dropped_piece)
  | .LockTimer =>
    finish_piece cfg { s with events := s.events.insert .Lock event_time }
      event event_time prev_piece_data [] prev_piece
  | .Lock =>
    match prev_piece with
    | none => none
    | some prev_piece =>
      -- Attempt to lock active piece fully above skyline - Game over.
      if prev_piece.tiles.all (fun tc => decide (tc.1.2 ≥ SKYLINE)) then
        some (.error (GameOver.LockOut, g))
      else
        -- Pre-save whether piece was spun into lock position.
        let spin := (prev_piece.fits_at s.board (0, 1)).isNone
        -- Locking.
        let board₁ := stampPiece s.board prev_piece
        -- Handle line clear counting for score (only do actual clearing in LineClear).
        let lines_cleared := completedRows board₁
        let n_lines_cleared := lines_cleared.length
        if n_lines_cleared > 0 then
          let n_tiles_used :=
            (prev_piece.tiles.filter fun tc => decide (tc.1.2 ∈ lines_cleared)).length
          let perfect_clear := board₁.all fun line => line.all fun tile => tile.isNone
          let consec := u32add s.consecutive_line_clears 1
          let special_clear := n_lines_cleared ≥ 4 ∨ spin = true ∨ perfect_clear = true
          let b2b := if special_clear then u32add s.back_to_back_special_clears 1 else 0
          let score_bonus :=
            u32mul (u32mul (u32mul (u32mul (u32mul 10 n_lines_cleared) n_tiles_used)
              (if spin then 2 else 1)) (if perfect_clear then 10 else 1)) consec
          -- Clear all events and only put in the line clear delay.
          let s₁ := { s with
            board := board₁,
            consecutive_line_clears := consec,
            back_to_back_special_clears := b2b,
            score := u32add s.score score_bonus,
            events := EventMap.clear.insert .LineClear (event_time + cfg.line_clear_delay) }
          let feedback :=
            [(event_time, FeedbackEvent.Accolade score_bonus prev_piece.shape spin
                n_lines_cleared perfect_clear consec n_tiles_used),
             (event_time, FeedbackEvent.LineClears lines_cleared cfg.line_clear_delay),
             (event_time, FeedbackEvent.PieceLocked prev_piece)]
          finish_piece cfg s₁ event event_time prev_piece_data feedback none
        else
          -- Clear all events and only put in the appearance delay.
          let s₁ := { s with
            board := board₁,
            consecutive_line_clears := 0,
            events := EventMap.clear.insert .Spawn (event_time + cfg.appearance_delay) }
          finish_piece cfg s₁ event event_time prev_piece_data
            [(event_time, FeedbackEvent.PieceLocked prev_piece)] none
  | .LineClear =>
    let cleared := line_clear_pass s.board s.lines_cleared
    let s₁ := { s with board := cleared.1, lines_cleared := cleared.2 }
    -- Increment level if 10 lines cleared (`saturating_add` on `u32`).
    let s₂ :=
      if cfg.gamemode.increment_level ∧ s₁.lines_cleared.length % 10 = 0 then
        { s₁ with level := min (s₁.level + 1) (U32MOD - 1) }
      else s₁
    let s₃ := { s₂ with events := s₂.events.insert .Spawn (event_time + cfg.appearance_delay) }
    finish_piece cfg s₃ event event_time prev_piece_data [] none

/-- `Stat`-limit check of the update loop (`if let Some(limit) = gamemode.limit`). -/
def goal_achieved (cfg : GameConfig) (s : GameState) : Prop :=
  match cfg.gamemode.limit with
  | none => False
  | some (.Lines lines) => lines ≤ s.lines_cleared.length
  | some (.Level level) => level ≤ s.level
  | some (.Score score) => score ≤ s.score
  | some (.Pieces pieces) =>
    pieces ≤ ([Tetromino.O, .I, .S, .Z, .T, .L, .J].map s.pieces_played).sum
  | some (.Time timer) => timer ≤ s.game_time

instance (cfg : GameConfig) (s : GameState) : Decidable (goal_achieved cfg s) := by
  unfold goal_achieved
  match cfg.gamemode.limit with
  | none => exact inferInstanceAs (Decidable False)
  | some (.Lines lines) => exact inferInstanceAs (Decidable (_ ≤ _))
  | some (.Level level) => exact inferInstanceAs (Decidable (_ ≤ _))
  | some (.Score score) => exact inferInstanceAs (Decidable (_ ≤ _))
  | some (.Pieces pieces) => exact inferInstanceAs (Decidable (_ ≤ _))
  | some (.Time timer) => exact inferInstanceAs (Decidable (_ ≤ _))

/-- The `'work_through_events` loop of `Game::update`.  The loop has no
syntactic termination measure (handlers may schedule events at the current
instant), so it carries explicit fuel; running out of fuel yields `none`, and
every theorem quantifies over the fuel.  The `.unwrap()` on an empty event map
is modelled as `none` as well. -/
def update_loop : Nat → Game → Option ButtonsPressed → GameTime → List Feedback →
    Option (Except Bool (List Feedback) × Game)
  | 0, _, _, _, _ => none
  | fuel + 1, g, new_button_state, update_time, acc =>
    -- Peek the next closest event.
    match g.state.events.minEntry with
    | none => none
    | some (event, event_time) =>
      -- Next event within requested update time, handle event first.
      if event_time ≤ update_time then
        let g₁ : Game :=
          { g with state := { g.state with events := g.state.events.remove event } }
        match handle_event g₁ event event_time with
        | none => none
        | some (.error (gameover, g₂)) =>
          -- Game Over.
          some (.ok acc, { g₂ with state :=
            { g₂.state with game_time := event_time, finished := some (.error gameover) } })
        | some (.ok (new_feedback, g₂)) =>
          let g₃ : Game := { g₂ with state := { g₂.state with game_time := event_time } }
          let acc' := acc ++ new_feedback
          -- Check if game has to end.
          if goal_achieved g₃.config g₃.state then
            some (.ok acc', { g₃ with state := { g₃.state with finished := some (.ok ()) } })
          else
            update_loop fuel g₃ new_button_state update_time acc'
      -- Possibly process user input events now or break out.
      else
        let g₁ : Game := { g with state := { g.state with game_time := update_time } }
        -- Update button inputs (`new_button_state.take()`).
        match new_button_state with
        | some buttons_pressed =>
          let diffedEvents :=
            handle_input_events g₁.state.events g₁.state.buttons_pressed
              buttons_pressed update_time
          let g₂ : Game :=
            if g₁.state.active_piece_data.isSome then
              { g₁ with state := { g₁.state with events := diffedEvents } }
            else g₁
          let g₃ : Game := { g₂ with state := { g₂.state with buttons_pressed := buttons_pressed } }
          update_loop fuel g₃ none update_time acc
        | none => some (.ok acc, g₁)

/-- `Game::update`.  The source returns `Result<Vec<_>, bool>`: `Err(true)`
when the game is already finished ("Terminated"), `Err(false)` when
`update_time < game_time` ("TimeRegress"). -/
def update (fuel : Nat) (g : Game) (new_button_state : Option ButtonsPressed)
    (update_time : GameTime) : Option (Except Bool (List Feedback) × Game) :=
  -- Handle game over: return immediately.
  if g.state.finished.isSome then some (.error true, g)
  else if update_time < g.state.game_time then some (.error false, g)
  else update_loop fuel g new_button_state update_time []

/-! Spec-side comparison definitions (transcribed from the specification text,
for refinement-style comparison with the source-derived definitions above). -/

/-- The drop-delay table exactly as the spec's §6 states it, in nanoseconds:
`1e9, 793e6, 617.796e6, 472.729e6, 355.197e6, 262.004e6, 189.677e6, 134.735e6,
93.882e6, 64.152e6, 42.976e6, 28.218e6, 18.153e6, 11.439e6, 7.059e6, 4.264e6,
2.520e6, 1.457e6, 0.824e6` for levels 1..19. -/
def spec_drop_delay (level : Nat) : GameTime :=
  match level with
  | 1 => 1000000000
  | 2 => 793000000
  | 3 => 617796000
  | 4 => 472729000
  | 5 => 355197000
  | 6 => 262004000
  | 7 => 189677000
  | 8 => 134735000
  | 9 => 93882000
  | 10 => 64152000
  | 11 => 42976000
  | 12 => 28218000
  | 13 => 18153000
  | 14 => 11439000
  | 15 => 7059000
  | 16 => 4264000
  | 17 => 2520000
  | 18 => 1457000
  | _ => 824000

/-- Round to the nearest multiple of 1000 (nearest microsecond boundary of a
nanosecond count, halves rounding up). -/
def round1000 (v : Nat) : Nat := (v + 500) / 1000 * 1000

/-- The spec's §4.H scoring formula:
`score_bonus = 10 × n × tiles_in_cleared × (spin ? 2 : 1) × (perfect_clear ? 10 : 1) × consecutive_line_clears`. -/
def spec_score_bonus (n tiles : Nat) (spin perfect : Bool) (combo : Nat) : Nat :=
  10 * n * tiles * (if spin then 2 else 1) * (if perfect then 10 else 1) * combo

/-! Claim-side views of the `Lock` handler's intermediate quantities, defined
from the same source-derived components the handler uses. -/

/-- The `Lock` handler's `spin` flag for piece `p` on the current board. -/
def lockSpin (g : Game) (p : ActivePiece) : Bool :=
  (p.fits_at g.state.board (0, 1)).isNone

/-- The rows completed once `p` is stamped onto the board (descending order). -/
def lockLines (g : Game) (p : ActivePiece) : List Nat :=
  completedRows (stampPiece g.state.board p)

/-- How many of `p`'s four tiles lie in a completed row. -/
def lockTiles (g : Game) (p : ActivePiece) : Nat :=
  (p.tiles.filter fun tc => decide (tc.1.2 ∈ lockLines g p)).length

/-- The `Lock` handler's `perfect_clear` flag (the stamped board all empty). -/
def lockPerfect (g : Game) (p : ActivePiece) : Bool :=
  (stampPiece g.state.board p).all fun line => line.all fun tile => tile.isNone

/-- `consecutive_line_clears` after its increment for this clear. -/
def lockCombo (g : Game) : Nat := u32add g.state.consecutive_line_clears 1

/-! A piece's life as a sequence of locking-data updates (for the `lowest_y`
invariant): each step records the handled event, its time, the resulting
active piece, and whether that piece rests on the stack. -/

/-- One post-spawn event in an active piece's life. -/
structure LifeStep where
  event : Event
  time : GameTime
  piece : ActivePiece
  touches : Bool
deriving DecidableEq, Repr

/-- Fold one life step through `calculate_locking_data`. -/
def life_step (cfg : GameConfig) (level : Nat)
    (acc : Option ((ActivePiece × LockingData) × EventMap)) (st : LifeStep) :
    Option ((ActivePiece × LockingData) × EventMap) :=
  acc.bind fun x =>
    (calculate_locking_data cfg level x.2 st.event st.time (some x.1)
        st.piece st.touches).map
      fun r => ((st.piece, r.1), r.2)

/-- A whole piece life: the spawn event (previous piece data `none`) followed
by the given steps. -/
def run_life (cfg : GameConfig) (level : Nat) (ev0 : EventMap) (p0 : ActivePiece)
    (t0 : GameTime) (tg0 : Bool) (steps : List LifeStep) :
    Option ((ActivePiece × LockingData) × EventMap) :=
  steps.foldl (life_step cfg level)
    ((calculate_locking_data cfg level ev0 .Spawn t0 none p0 tg0).map
      fun r => ((p0, r.1), r.2))

/-- The minimum `y` the piece's position has occupied over a life (spawn
position and every step's position). -/
def occupiedMinY (p0 : ActivePiece) (steps : List LifeStep) : Nat :=
  (steps.map fun st => st.piece.pos.2).foldl min p0.pos.2

/-- The minimum over the spawn `y` and the `y` of every step on which the
piece touched the ground. -/
def groundedMinY (p0 : ActivePiece) (steps : List LifeStep) : Nat :=
  ((steps.filter fun st => st.touches).map fun st => st.piece.pos.2).foldl min p0.pos.2

/-- The state reached by the input-processing branch of the update loop: game
time advanced to the target, the input differencer applied, the new button
state stored. -/
def inputApplied (g : Game) (b : ButtonsPressed) (t : GameTime) : Game :=
  { g with state := { g.state with
      game_time := t,
      events := handle_input_events g.state.events g.state.buttons_pressed b t,
      buttons_pressed := b } }

/-- Project a successful `handle_event` result. -/
def handleOk (r : Option (Except (GameOver × Game) (List Feedback × Game))) :
    Option (List Feedback × Game) :=
  match r with
  | some (.ok x) => some x
  | _ => none

/-- Project a successful `update` result. -/
def updateOk (r : Option (Except Bool (List Feedback) × Game)) :
    Option (List Feedback × Game) :=
  match r with
  | some (.ok fb, g) => some (fb, g)
  | _ => none

/-! Concrete fixtures used by witnesses and counterexamples. -/

/-- An empty 27×10 board. -/
def emptyBoard : Board := List.replicate HEIGHT (List.replicate WIDTH (none : Option Nat))

/-- A small endless-mode configuration (no mode limit). -/
def cfg0 : GameConfig := {
  gamemode := { name := "Endless", start_level := 1, increment_level := true,
                limit := none, optimize := Stat.Pieces 0 }
  rotation_system := .Ocular
  tetromino_generator := { stream := fun _ => .O, cursor := 0 }
  preview_count := 1
  delayed_auto_shift := 200000000
  auto_repeat_rate := 50000000
  soft_drop_factor := 15
  hard_drop_delay := 100000
  ground_time_max := 2250000000
  line_clear_delay := 200000000
  appearance_delay := 100000000 }

/-- No buttons held. -/
def noButtons : ButtonsPressed := ⟨false, false, false, false, false, false, false⟩

/-- Locking data of a piece freshly spawned afloat at `y = 25` at time 0. -/
def ld0 : LockingData := {
  touches_ground := false
  last_touchdown := none
  last_liftoff := some 0
  ground_time_left := 2250000000
  lowest_y := 25 }

/-- An `O` piece afloat high above the empty board. -/
def pieceO : ActivePiece := { shape := .O, orientation := .N, pos := (4, 25) }

/-- A game state with the afloat `O` piece and a single far-future `Fall`. -/
def st0 : GameState := {
  game_time := 0
  finished := none
  events := EventMap.clear.insert .Fall 5000000000
  buttons_pressed := noButtons
  board := emptyBoard
  active_piece_data := some (pieceO, ld0)
  next_pieces := [.I]
  pieces_played := fun _ => 0
  lines_cleared := []
  level := 1
  score := 0
  consecutive_line_clears := 0
  back_to_back_special_clears := 0 }

/-- The fixture game. -/
def g0 : Game := { state := st0, config := cfg0 }

/-- Only the hard-drop button held. -/
def hdButtons : ButtonsPressed := ⟨false, false, false, false, false, false, true⟩

/-- Only the soft-drop button held. -/
def sdButtons : ButtonsPressed := ⟨false, false, false, false, false, true, false⟩

/-- Move-left held. -/
def prev10 : ButtonsPressed := ⟨true, false, false, false, false, false, false⟩

/-- Both move buttons held. -/
def next11 : ButtonsPressed := ⟨true, true, false, false, false, false, false⟩

/-- Move-right held. -/
def next01 : ButtonsPressed := ⟨false, true, false, false, false, false, false⟩

/-- An event map with a pending `MoveFast`. -/
def movefastMap : EventMap := EventMap.clear.insert .MoveFast 3

/-- Row 0 of the board, filled except at `x = 8, 9`. -/
def rowAlmost : Line :=
  [some 1, some 1, some 1, some 1, some 1, some 1, some 1, some 1, none, none]

/-- A board whose bottom row is complete except at `x = 8, 9`. -/
def boardC1 : Board :=
  rowAlmost :: List.replicate (HEIGHT - 1) (List.replicate WIDTH (none : Option Nat))

/-- An `O` piece resting at `(8, 0)` (completing row 0 of `boardC1`). -/
def pieceO2 : ActivePiece := { shape := .O, orientation := .N, pos := (8, 0) }

/-- Grounded locking data. -/
def ldg : LockingData := {
  touches_ground := true
  last_touchdown := some 0
  last_liftoff := none
  ground_time_left := 2250000000
  lowest_y := 0 }

/-- State about to lock the `O` piece into `boardC1`. -/
def stC1 : GameState := { st0 with
  board := boardC1,
  active_piece_data := some (pieceO2, ldg) }

/-- Game about to lock and clear one row. -/
def gC1 : Game := { state := stC1, config := cfg0 }

/-- An `O` piece entirely above the skyline (tiles at `y = 22, 23`). -/
def pieceHigh : ActivePiece := { shape := .O, orientation := .N, pos := (4, 22) }

/-- State about to lock the all-above-skyline piece. -/
def stHigh : GameState := { st0 with active_piece_data := some (pieceHigh, ldg) }

/-- Game whose lock attempt is a lock-out. -/
def gHigh : Game := { state := stHigh, config := cfg0 }

/-- The `O` piece one cell below its spawn position, still afloat. -/
def pieceDown : ActivePiece := { shape := .O, orientation := .N, pos := (4, 24) }

/-- A `Fall` step that leaves the piece afloat at `y = 24`. -/
def lifeStep1 : LifeStep := { event := .Fall, time := 1000, piece := pieceDown, touches := false }

/-- The locking data produced by the spawn step of the fixture life. -/
def ldSpawn : LockingData := {
  touches_ground := false
  last_touchdown := none
  last_liftoff := some 0
  ground_time_left := 2250000000
  lowest_y := 25 }

/-- The piece-life fold result for the one-step fixture life. -/
def lifeResult : (ActivePiece × LockingData) × EventMap :=
  ((pieceDown, ldSpawn), st0.events)

/-- A piece far outside the board (for the no-fit-check zero-rotation case). -/
def pieceFar : ActivePiece := { shape := .T, orientation := .E, pos := (100, 100) }


/-! Helper lemmas about the event map's minimum-entry selection. -/

theorem mem_allEvents (e : Event) : e ∈ allEvents := by
  cases e <;> simp [allEvents]

/-- `type EventMap = HashMap<Event, GameTime>;` — at most one pending time per
event kind, so a function to `Option GameTime`. -/

theorem minStep_some (acc : Option (Event × GameTime)) (x : Event × GameTime) :
    ∃ y, minStep acc x = some y := by
  unfold minStep
  match acc with
  | none => exact ⟨x, rfl⟩
  | some y =>
    by_cases h : x.2 < y.2 ∨ (x.2 = y.2 ∧ x.1.rank < y.1.rank)
    · exact ⟨x, by simp [h]⟩
    · exact ⟨y, by simp [h]⟩

theorem foldl_minStep_some (l : List (Event × GameTime)) :
    ∀ y, ∃ z, l.foldl minStep (some y) = some z := by
  induction l with
  | nil => exact fun y => ⟨y, rfl⟩
  | cons x xs ih =>
    intro y
    simp only [List.foldl]
    obtain ⟨z, hz⟩ := minStep_some (some y) x
    rw [hz]
    exact ih z

theorem foldl_minStep_mem (l : List (Event × GameTime)) :
    ∀ acc p, l.foldl minStep acc = some p → acc = some p ∨ p ∈ l := by
  induction l with
  | nil =>
    intro acc p h
    exact Or.inl (by simpa [List.foldl] using h)
  | cons x xs ih =>
    intro acc p h
    simp only [List.foldl] at h
    rcases ih (minStep acc x) p h with h' | h'
    · cases acc with
      | none =>
        simp only [minStep] at h'
        injection h' with h''
        exact Or.inr (by simp [← h''])
      | some y =>
        simp only [minStep] at h'
        split at h'
        · injection h' with h''
          exact Or.inr (by simp [← h''])
        · exact Or.inl h'
    · exact Or.inr (List.mem_cons_of_mem _ h')

theorem foldl_minStep_le (l : List (Event × GameTime)) :
    ∀ acc p, l.foldl minStep acc = some p →
      (∀ y, acc = some y → p.2 ≤ y.2) ∧ (∀ x ∈ l, p.2 ≤ x.2) := by
  induction l with
  | nil =>
    intro acc p h
    refine ⟨fun y hy => ?_, fun x hx => absurd hx (List.not_mem_nil x)⟩
    simp only [List.foldl] at h
    rw [hy] at h
    injection h with h'
    rw [h']
  | cons x xs ih =>
    intro acc p h
    simp only [List.foldl] at h
    obtain ⟨hacc, hmem⟩ := ih (minStep acc x) p h
    have hstep : ∀ z, minStep acc x = some z →
        z.2 ≤ x.2 ∧ ∀ y, acc = some y → z.2 ≤ y.2 := by
      intro z hz
      cases acc with
      | none =>
        simp only [minStep] at hz
        injection hz with hz'
        subst hz'
        exact ⟨le_refl _, fun y hy => Option.noConfusion hy⟩
      | some y =>
        simp only [minStep] at hz
        by_cases hcond : x.2 < y.2 ∨ (x.2 = y.2 ∧ x.1.rank < y.1.rank)
        · rw [if_pos hcond] at hz
          injection hz with hz'
          subst hz'
          refine ⟨le_refl _, fun y' hy' => ?_⟩
          injection hy' with hy''
          subst hy''
          rcases hcond with h' | ⟨h', _⟩
          · exact le_of_lt h'
          · exact le_of_eq h'
        · rw [if_neg hcond] at hz
          injection hz with hz'
          subst hz'
          have hyx : y.2 ≤ x.2 := by
            by_contra hlt
            exact hcond (Or.inl (not_le.mp hlt))
          refine ⟨hyx, fun y' hy' => ?_⟩
          injection hy' with hy''
          subst hy''
          exact le_refl _
    obtain ⟨z, hz⟩ := minStep_some acc x
    obtain ⟨hz1, hz2⟩ := hstep z hz
    have hpz : p.2 ≤ z.2 := hacc z hz
    refine ⟨fun y hy => le_trans hpz (hz2 y hy), fun x' hx' => ?_⟩
    rcases List.mem_cons.mp hx' with h' | h'
    · subst h'
      exact le_trans hpz hz1
    · exact hmem x' h'

theorem mem_entries {m : EventMap} {e : Event} {t : GameTime} :
    (e, t) ∈ m.entries ↔ m e = some t := by
  unfold EventMap.entries
  constructor
  · intro h
    obtain ⟨a, _, ha⟩ := List.mem_filterMap.mp h
    cases hma : m a with
    | none => rw [hma] at ha; cases ha
    | some ta =>
      rw [hma] at ha
      injection ha with ha'
      injection ha' with h1 h2
      rw [← h1, hma, h2]
  · intro h
    exact List.mem_filterMap.mpr ⟨e, mem_allEvents e, by rw [h]; rfl⟩

theorem minEntry_mem {m : EventMap} {p : Event × GameTime}
    (h : m.minEntry = some p) : m p.1 = some p.2 := by
  rcases foldl_minStep_mem m.entries none p h with h' | h'
  · exact Option.noConfusion h'
  · exact mem_entries.mp h'

theorem minEntry_le {m : EventMap} {p : Event × GameTime}
    (h : m.minEntry = some p) : ∀ e t, m e = some t → p.2 ≤ t := by
  intro e t het
  exact (foldl_minStep_le m.entries none p h).2 (e, t) (mem_entries.mpr het)

theorem minEntry_isSome {m : EventMap} {e : Event} {t : GameTime}
    (h : m e = some t) : ∃ p, m.minEntry = some p := by
  have hmem : (e, t) ∈ m.entries := mem_entries.mpr h
  unfold EventMap.minEntry
  obtain ⟨l1, l2, hsplit⟩ := List.append_of_mem hmem
  rw [hsplit, List.foldl_append]
  simp only [List.foldl]
  obtain ⟨z, hz⟩ := minStep_some (l1.foldl minStep none) (e, t)
  rw [hz]
  exact foldl_minStep_some l2 z

theorem lookup_ite (c : Prop) [Decidable c] (m₁ m₂ : EventMap) (e : Event) :
    (if c then m₁ else m₂) e = if c then m₁ e else m₂ e := by
  split <;> rfl

/-- Claim C6 (counterexample): at level 4 the engine's drop delay is
`472_729_139` ns while the spec's table entry is `472.729e6 = 472_729_000` ns,
so the engine's delay does not equal the spec's table entry. -/
theorem C6_drop_delay_counterexample :
    drop_delay 4 = 472729139 ∧ spec_drop_delay 4 = 472729000 ∧
      drop_delay 4 ≠ spec_drop_delay 4 :=
  ⟨rfl, rfl, by decide⟩

/-- Claim C6 (amended): for every level 1..19, the engine's drop delay equals
the spec's table entry after rounding to the nearest 1000 nanoseconds (it is
exact at levels 1-3 and within 500 ns elsewhere). -/
theorem C6_drop_delay_amended : ∀ level, level < 20 → 1 ≤ level →
    round1000 (drop_delay level) = spec_drop_delay level := by decide

theorem C6_drop_delay_amended_witness :
    round1000 (drop_delay 4) = spec_drop_delay 4 :=
  C6_drop_delay_amended 4 (by decide) (by decide)

/-- Claim C10: for every rotation system, every board and every active piece,
rotating by a multiple of four quarter-turns returns the piece unchanged; the
zero-turn case performs no fit check, so this holds even for pieces that do
not fit the board. -/
theorem C10_zero_turn_rotate (rs : RotationSystem) (p : ActivePiece) (b : Board)
    (turns : Int) (h : turns % 4 = 0) : rs.rotate p b turns = some p := by
  have h0 : (turns.emod 4).toNat = 0 := by
    rw [show turns.emod 4 = turns % 4 from rfl, h]
    rfl
  cases rs
  · show ocular_rotate p b turns = some p
    unfold ocular_rotate
    rw [h0]
  · show classic_rotate p b turns = some p
    unfold classic_rotate
    rw [h0]
  · show super_rotate p b turns = some p
    unfold super_rotate
    rw [h0]

theorem C10_zero_turn_rotate_witness :
    RotationSystem.Super.rotate pieceFar emptyBoard 8 = some pieceFar ∧
    pieceFar.fits emptyBoard = false :=
  ⟨C10_zero_turn_rotate .Super pieceFar emptyBoard 8 (by decide), by decide⟩

/-- Claim C7 (counterexample): with a `MoveFast` pending, the `10 → 11`
transition (and likewise `01 → 11`) leaves no `MoveFast` event pending at all,
while the claim asserts a `MoveFast` would be scheduled at `t = 7`. -/
theorem C7_counterexample :
    (handle_input_events movefastMap prev10 next11 7) Event.MoveFast = none ∧
    (handle_input_events movefastMap next01 next11 7) Event.MoveFast = none :=
  ⟨by decide, by decide⟩

/-- Claim C7 (amended): when exactly one move direction was held and both are
held afterwards (`10 → 11`, `01 → 11`), the input differencer removes any
pending `MoveFast` and schedules nothing in its place; the remove-and-
reschedule of `MoveFast` at `t` happens instead on the transitions where the
opposite direction becomes the single held one — `(mL0 ∧ ¬mL1 ∧ mR1)` or
`(mR0 ∧ mL1 ∧ ¬mR1)`, i.e. `10 → 01`, `01 → 10`, `11 → 01`, `11 → 10`. -/
theorem C7_move_transitions (ev : EventMap) (p n : ButtonsPressed) (t : GameTime) :
    (p.mL ≠ p.mR → n.mL = true → n.mR = true →
      (handle_input_events ev p n t) Event.MoveFast = none) ∧
    ((p.mL = true ∧ n.mL = false ∧ n.mR = true) ∨
        (p.mR = true ∧ n.mL = true ∧ n.mR = false) →
      (handle_input_events ev p n t) Event.MoveFast = some t) := by
  obtain ⟨pmL, pmR, prL, prR, prA, pdS, pdH⟩ := p
  obtain ⟨nmL, nmR, nrL, nrR, nrA, ndS, ndH⟩ := n
  constructor
  · intro hheld h1 h2
    cases pmL <;> cases pmR <;>
      simp_all [handle_input_events, EventMap.insert, EventMap.remove, lookup_ite]
  · intro hsw
    cases pmL <;> cases pmR <;> cases nmL <;> cases nmR <;>
      simp_all [handle_input_events, EventMap.insert, EventMap.remove, lookup_ite]

theorem C7_move_transitions_witness :
    ((handle_input_events movefastMap prev10 next11 5) Event.MoveFast = none) ∧
    ((handle_input_events movefastMap prev10 next01 5) Event.MoveFast = some 5) ∧
    ((handle_input_events movefastMap next11 next01 5) Event.MoveFast = some 5) :=
  ⟨(C7_move_transitions movefastMap prev10 next11 5).1 (by decide) rfl rfl,
   (C7_move_transitions movefastMap prev10 next01 5).2 (Or.inl ⟨rfl, rfl, rfl⟩),
   (C7_move_transitions movefastMap next11 next01 5).2 (Or.inl ⟨rfl, rfl, rfl⟩)⟩

theorem foldl_min_le (l : List Nat) : ∀ a, l.foldl min a ≤ a := by
  induction l with
  | nil => intro a; exact le_refl a
  | cons x xs ih => intro a; exact le_trans (ih (min a x)) (min_le_left a x)

theorem cld_lowest_spawn {cfg : GameConfig} {level : Nat} {ev : EventMap}
    {t : GameTime} {p : ActivePiece} {tg : Bool} {r : LockingData × EventMap}
    (h : calculate_locking_data cfg level ev .Spawn t none p tg = some r) :
    r.1.lowest_y = p.pos.2 := by
  cases tg with
  | false =>
    simp only [calculate_locking_data] at h
    injection h with h'
    rw [← h']
  | true =>
    simp only [calculate_locking_data] at h
    split at h <;> (injection h with h'; rw [← h'])

theorem cld_lowest_step {cfg : GameConfig} {level : Nat} {ev : EventMap}
    {e : Event} {t : GameTime} {q : ActivePiece} {ld : LockingData}
    {p : ActivePiece} {tg : Bool} {r : LockingData × EventMap}
    (h : calculate_locking_data cfg level ev e t (some (q, ld)) p tg = some r) :
    r.1.lowest_y = if tg then min ld.lowest_y p.pos.2 else ld.lowest_y := by
  cases tg with
  | false =>
    show r.1.lowest_y = ld.lowest_y
    simp only [calculate_locking_data] at h
    split at h <;> (injection h with h'; rw [← h'])
  | true =>
    show r.1.lowest_y = min ld.lowest_y p.pos.2
    simp only [calculate_locking_data] at h
    by_cases hge : p.pos.2 ≥ ld.lowest_y
    · rw [if_pos hge] at h
      rw [min_eq_left hge]
      split at h
      -- the nested lookup produced no locking data: impossible given `some r`
      · exact Option.noConfusion h
      · rename_i nld heq
        -- every branch of the lookup keeps `lowest_y` when no reset happens
        have hn : nld.lowest_y = ld.lowest_y := by
          split at heq
          · injection heq with he
            rw [← he]
          · split at heq
            · exact Option.noConfusion heq
            · split at heq
              · split at heq
                · injection heq with he; rw [← he]
                · injection heq with he; rw [← he]
              · injection heq with he; rw [← he]
        -- the lock-timer scheduling passes the locking data through
        have hr : r.1 = nld := by
          split at h
          · split at h
            · exact Option.noConfusion h
            · injection h with he2; rw [← he2]
          · injection h with he2; rw [← he2]
        rw [hr, hn]
    · rw [if_neg hge] at h
      rw [min_eq_right (le_of_lt (not_le.mp hge))]
      split at h
      · rename_i heq
        exact Option.noConfusion heq
      · rename_i nld heq
        injection heq with he
        have hr : r.1 = nld := by
          split at h
          · split at h
            · exact Option.noConfusion h
            · injection h with he2; rw [← he2]
          · injection h with he2; rw [← he2]
        rw [hr, ← he]

theorem foldl_life_none (cfg : GameConfig) (level : Nat) :
    ∀ steps : List LifeStep, steps.foldl (life_step cfg level) none = none := by
  intro steps
  induction steps with
  | nil => rfl
  | cons st rest ih => simpa [List.foldl, life_step] using ih

theorem run_steps_lowest (cfg : GameConfig) (level : Nat) :
    ∀ (steps : List LifeStep) (x : (ActivePiece × LockingData) × EventMap)
      (pld : (ActivePiece × LockingData) × EventMap),
      steps.foldl (life_step cfg level) (some x) = some pld →
      pld.1.2.lowest_y =
        ((steps.filter fun st => st.touches).map fun st => st.piece.pos.2).foldl
          min x.1.2.lowest_y := by
  intro steps
  induction steps with
  | nil =>
    intro x pld h
    injection h with h'
    simp only [List.filter_nil, List.map_nil, List.foldl_nil]
    rw [← h']
  | cons st rest ih =>
    intro x pld h
    obtain ⟨⟨xp, xld⟩, xev⟩ := x
    simp only [List.foldl] at h
    cases hc : calculate_locking_data cfg level xev st.event st.time (some (xp, xld))
        st.piece st.touches with
    | none =>
      rw [show life_step cfg level (some ((xp, xld), xev)) st = none from by
        simp [life_step, hc]] at h
      rw [foldl_life_none] at h
      exact Option.noConfusion h
    | some r =>
      rw [show life_step cfg level (some ((xp, xld), xev)) st = some ((st.piece, r.1), r.2)
        from by simp [life_step, hc]] at h
      have hrec := ih ((st.piece, r.1), r.2) pld h
      have hlow := cld_lowest_step hc
      by_cases ht : st.touches
      · rw [List.filter_cons_of_pos (by simpa using ht), List.map_cons, List.foldl_cons,
          hrec]
        rw [ht] at hlow
        rw [show r.1.lowest_y = min xld.lowest_y st.piece.pos.2 from by
          simpa using hlow]
      · rw [List.filter_cons_of_neg (by simpa using ht), hrec]
        rw [show r.1.lowest_y = xld.lowest_y from by
          simpa [ht] using hlow]

/-- Claim C5 (counterexample): a `Fall` event that leaves the piece afloat one
cell lower does not update `lowest_y`.  In the fixture life, the piece spawned
at `y = 25` and fell to `y = 24` (minimum occupied `y` is `24`), yet
`locking_data.lowest_y` is still `25` — both through the piece-life fold and
through the actual `Fall` handler. -/
theorem C5_counterexample :
    run_life cfg0 1 st0.events pieceO 0 false [lifeStep1] = some lifeResult ∧
    lifeResult.1.2.lowest_y = 25 ∧
    occupiedMinY pieceO [lifeStep1] = 24 ∧
    (handleOk (handle_event g0 .Fall 1000)).map
        (fun x => x.2.state.active_piece_data.map fun pd => (pd.1.pos.2, pd.2.lowest_y))
      = some (some (24, 25)) :=
  ⟨rfl, rfl, by decide, by decide⟩

/-- Claim C5 (amended): over an active piece's life, `lowest_y` equals the
minimum over the spawn `y` and the `y` of every position at which the piece
touched the ground — so it never increases and never exceeds the spawn `y`,
but it is not updated by events that leave the piece afloat and can therefore
exceed the true minimum `y` occupied. -/
theorem C5_lowest_y_amended (cfg : GameConfig) (level : Nat) (ev0 : EventMap)
    (p0 : ActivePiece) (t0 : GameTime) (tg0 : Bool) (steps : List LifeStep)
    (pld : (ActivePiece × LockingData) × EventMap)
    (h : run_life cfg level ev0 p0 t0 tg0 steps = some pld) :
    pld.1.2.lowest_y = groundedMinY p0 steps ∧ pld.1.2.lowest_y ≤ p0.pos.2 := by
  unfold run_life at h
  cases hsp : calculate_locking_data cfg level ev0 .Spawn t0 none p0 tg0 with
  | none =>
    rw [hsp] at h
    rw [show ((none : Option (LockingData × EventMap)).map
      fun r => ((p0, r.1), r.2)) = none from rfl] at h
    rw [foldl_life_none] at h
    exact Option.noConfusion h
  | some r =>
    rw [hsp] at h
    rw [show ((some r).map fun r => ((p0, r.1), r.2))
      = some ((p0, r.1), r.2) from rfl] at h
    have hmain := run_steps_lowest cfg level steps ((p0, r.1), r.2) pld h
    have hsp_low : r.1.lowest_y = p0.pos.2 := cld_lowest_spawn hsp
    rw [show (((p0, r.1), r.2) : (ActivePiece × LockingData) × EventMap).1.2.lowest_y
      = p0.pos.2 from hsp_low] at hmain
    exact ⟨hmain, hmain ▸ foldl_min_le _ _⟩

theorem C5_lowest_y_amended_witness :
    lifeResult.1.2.lowest_y = groundedMinY pieceO [lifeStep1] ∧
    lifeResult.1.2.lowest_y ≤ pieceO.pos.2 :=
  C5_lowest_y_amended cfg0 1 st0.events pieceO 0 false [lifeStep1] lifeResult rfl

/-- Claim C2: handling a `Lock` event ends the game with `LockOut` exactly
when all four tiles of the active piece lie at `y ≥ SKYLINE`; whenever the
lock survives, at least one tile of the locked piece has `y < SKYLINE`. -/
theorem C2_lock_skyline (g : Game) (p : ActivePiece) (ld : LockingData)
    (t : GameTime) (hactive : g.state.active_piece_data = some (p, ld)) :
    (handle_event g .Lock t = some (.error (GameOver.LockOut, g)) ↔
      ∀ tc ∈ p.tiles, SKYLINE ≤ tc.1.2) ∧
    (∀ fb g', handle_event g .Lock t = some (.ok (fb, g')) →
      ∃ tc ∈ p.tiles, tc.1.2 < SKYLINE) := by
  by_cases hsky : (p.tiles.all fun tc => decide (tc.1.2 ≥ SKYLINE)) = true
  · have heq : handle_event g .Lock t = some (.error (GameOver.LockOut, g)) := by
      simp only [handle_event, hactive, Option.map_some', hsky, if_true]
    have hforall : ∀ tc ∈ p.tiles, SKYLINE ≤ tc.1.2 := by
      intro tc htc
      exact of_decide_eq_true (List.all_eq_true.mp hsky tc htc)
    refine ⟨⟨fun _ => hforall, fun _ => heq⟩, fun fb g' hok => ?_⟩
    rw [heq] at hok
    injection hok with h1
    exact Except.noConfusion h1
  · have hex : ∃ tc ∈ p.tiles, tc.1.2 < SKYLINE := by
      have := hsky
      rw [List.all_eq_true] at this
      push_neg at this
      obtain ⟨tc, htc, hd⟩ := this
      exact ⟨tc, htc, not_le.mp fun hle => hd (decide_eq_true hle)⟩
    have hok : ∃ fb g', handle_event g .Lock t = some (.ok (fb, g')) := by
      by_cases hn : (completedRows (stampPiece g.state.board p)).length > 0
      · exact ⟨_, _, by
          simp only [handle_event, hactive, Option.map_some']
          rw [if_neg hsky, if_pos hn]
          rfl⟩
      · exact ⟨_, _, by
          simp only [handle_event, hactive, Option.map_some']
          rw [if_neg hsky, if_neg hn]
          rfl⟩
    obtain ⟨fb0, g0', hok0⟩ := hok
    refine ⟨⟨fun herr => ?_, fun hforall => ?_⟩, fun fb g' _ => hex⟩
    · rw [hok0] at herr
      injection herr with h1
      exact Except.noConfusion h1
    · exact absurd (List.all_eq_true.mpr fun tc htc => decide_eq_true (hforall tc htc)) hsky

theorem u32mul_chain (a b c d e : Nat) :
    u32mul (u32mul (u32mul (u32mul (u32mul 10 a) b) c) d) e =
      (10 * a * b * c * d * e) % U32MOD := by
  simp only [u32mul, Nat.mod_mul_mod]

/-- Claim C1: on a surviving `Lock` that completes at least one row, the
`Accolade`'s `score_bonus` is
`10 × n × tiles_in_cleared × (spin ? 2 : 1) × (perfect_clear ? 10 : 1) × consecutive_line_clears`
(with the counter already incremented for this clear), and the same amount is
added to `state.score` — exactly, provided neither the bonus nor the new score
wraps around `u32`. -/
theorem C1_lock_score_formula (g : Game) (p : ActivePiece) (ld : LockingData)
    (t : GameTime)
    (hactive : g.state.active_piece_data = some (p, ld))
    (hsky : ¬(p.tiles.all fun tc => decide (tc.1.2 ≥ SKYLINE)) = true)
    (hn : (completedRows (stampPiece g.state.board p)).length > 0)
    (hbonus : spec_score_bonus (lockLines g p).length (lockTiles g p) (lockSpin g p)
        (lockPerfect g p) (lockCombo g) < U32MOD)
    (hscore : g.state.score + spec_score_bonus (lockLines g p).length (lockTiles g p)
        (lockSpin g p) (lockPerfect g p) (lockCombo g) < U32MOD) :
    ∃ fb g', handle_event g .Lock t = some (.ok (fb, g')) ∧
      (t, FeedbackEvent.Accolade
          (spec_score_bonus (lockLines g p).length (lockTiles g p) (lockSpin g p)
            (lockPerfect g p) (lockCombo g))
          p.shape (lockSpin g p) (lockLines g p).length (lockPerfect g p)
          (lockCombo g) (lockTiles g p)) ∈ fb ∧
      g'.state.score = g.state.score + spec_score_bonus (lockLines g p).length
        (lockTiles g p) (lockSpin g p) (lockPerfect g p) (lockCombo g) := by
  have hb :
      u32mul (u32mul (u32mul (u32mul (u32mul 10 (lockLines g p).length)
          (lockTiles g p)) (if lockSpin g p then 2 else 1))
        (if lockPerfect g p then 10 else 1)) (lockCombo g) =
      spec_score_bonus (lockLines g p).length (lockTiles g p) (lockSpin g p)
        (lockPerfect g p) (lockCombo g) := by
    rw [u32mul_chain]
    exact Nat.mod_eq_of_lt hbonus
  simp only [handle_event, hactive, Option.map_some']
  rw [if_neg hsky, if_pos hn]
  simp only [lockSpin, lockLines, lockTiles, lockPerfect, lockCombo,
    spec_score_bonus] at hb hscore ⊢
  refine ⟨_, _, rfl, ?_, ?_⟩
  · rw [← hb]
    exact List.mem_cons_self _ _
  · dsimp only
    rw [hb]
    exact Nat.mod_eq_of_lt hscore

theorem C1_lock_score_formula_witness :
    ∃ fb g', handle_event gC1 .Lock 500 = some (.ok (fb, g')) ∧
      (500, FeedbackEvent.Accolade
          (spec_score_bonus (lockLines gC1 pieceO2).length (lockTiles gC1 pieceO2)
            (lockSpin gC1 pieceO2) (lockPerfect gC1 pieceO2) (lockCombo gC1))
          pieceO2.shape (lockSpin gC1 pieceO2) (lockLines gC1 pieceO2).length
          (lockPerfect gC1 pieceO2) (lockCombo gC1) (lockTiles gC1 pieceO2)) ∈ fb ∧
      g'.state.score = gC1.state.score + spec_score_bonus (lockLines gC1 pieceO2).length
        (lockTiles gC1 pieceO2) (lockSpin gC1 pieceO2) (lockPerfect gC1 pieceO2)
        (lockCombo gC1) :=
  C1_lock_score_formula gC1 pieceO2 ldg 500 rfl (by decide) (by decide) (by decide)
    (by decide)

theorem C2_lock_skyline_witness :
    ((handle_event gHigh .Lock 0 = some (.error (GameOver.LockOut, gHigh)) ↔
      ∀ tc ∈ pieceHigh.tiles, SKYLINE ≤ tc.1.2) ∧
     (∀ fb g', handle_event gHigh .Lock 0 = some (.ok (fb, g')) →
      ∃ tc ∈ pieceHigh.tiles, tc.1.2 < SKYLINE)) :=
  C2_lock_skyline gHigh pieceHigh ldg 0 rfl

theorem update_loop_no_error (fuel : Nat) :
    ∀ (g : Game) (b : Option ButtonsPressed) (t : GameTime) (acc : List Feedback)
      (e : Bool) (g' : Game), update_loop fuel g b t acc ≠ some (.error e, g') := by
  induction fuel with
  | zero =>
    intro g b t acc e g' h
    exact Option.noConfusion h
  | succ n ih =>
    intro g b t acc e g' h
    simp only [update_loop] at h
    cases hm : g.state.events.minEntry with
    | none =>
      rw [hm] at h
      exact Option.noConfusion h
    | some pr =>
      obtain ⟨ev, te⟩ := pr
      rw [hm] at h
      simp only at h
      by_cases hte : te ≤ t
      · rw [if_pos hte] at h
        cases hh : handle_event
            { g with state := { g.state with events := g.state.events.remove ev } } ev te with
        | none =>
          rw [hh] at h
          exact Option.noConfusion h
        | some res =>
          rw [hh] at h
          cases res with
          | error pr2 =>
            obtain ⟨go, g2⟩ := pr2
            simp only at h
            injection h with h1
            injection h1 with ha _
            exact Except.noConfusion ha
          | ok pr2 =>
            obtain ⟨fb2, g2⟩ := pr2
            simp only at h
            split at h
            · injection h with h1
              injection h1 with ha _
              exact Except.noConfusion ha
            · exact ih _ _ _ _ _ _ h
      · rw [if_neg hte] at h
        cases b with
        | some btns =>
          simp only at h
          exact ih _ _ _ _ _ _ h
        | none =>
          simp only at h
          injection h with h1
          injection h1 with ha _
          exact Except.noConfusion ha

/-- Claim C3: `update` returns an error exactly when the game is already
finished (`Err(true)`, "Terminated", checked first) or the target time lies
before the current game time (`Err(false)`, "TimeRegress"); in either case
the entire game (state and config) is returned unchanged. -/
theorem C3_update_error_iff (fuel : Nat) (g : Game) (b : Option ButtonsPressed)
    (t : GameTime) (e : Bool) (g' : Game) :
    update fuel g b t = some (.error e, g') ↔
      (g' = g ∧ ((e = true ∧ g.state.finished.isSome = true) ∨
        (e = false ∧ g.state.finished = none ∧ t < g.state.game_time))) := by
  unfold update
  by_cases hfin : g.state.finished.isSome = true
  · rw [if_pos hfin]
    constructor
    · intro h
      injection h with h1
      injection h1 with ha hb
      injection ha with he
      exact ⟨hb.symm, Or.inl ⟨he.symm, hfin⟩⟩
    · rintro ⟨rfl, ⟨rfl, _⟩ | ⟨rfl, hnone, _⟩⟩
      · rfl
      · rw [hnone] at hfin
        exact absurd hfin (by simp)
  · rw [if_neg hfin]
    have hnone : g.state.finished = none := Option.not_isSome_iff_eq_none.mp hfin
    by_cases ht : t < g.state.game_time
    · rw [if_pos ht]
      constructor
      · intro h
        injection h with h1
        injection h1 with ha hb
        injection ha with he
        exact ⟨hb.symm, Or.inr ⟨he.symm, hnone, ht⟩⟩
      · rintro ⟨rfl, ⟨rfl, hsome⟩ | ⟨rfl, _, _⟩⟩
        · exact absurd hsome hfin
        · rfl
    · rw [if_neg ht]
      constructor
      · intro h
        exact absurd h (update_loop_no_error fuel g b t [] e g')
      · rintro ⟨rfl, ⟨_, hsome⟩ | ⟨_, _, hlt⟩⟩
        · exact absurd hsome hfin
        · exact absurd hlt ht

/-- Claim C4: if the game is unfinished and every pending event lies strictly
in the future, then `update(None, game_time)` succeeds with no feedback and
leaves the game completely unchanged. -/
theorem C4_quiescent_noop (fuel : Nat) (g : Game)
    (hfin : g.state.finished = none)
    (hne : ∃ e te, g.state.events e = some te)
    (hfut : ∀ e te, g.state.events e = some te → g.state.game_time < te) :
    update (fuel + 1) g none g.state.game_time = some (.ok [], g) := by
  obtain ⟨e0, t0, he0⟩ := hne
  obtain ⟨⟨e1, t1⟩, hp⟩ := minEntry_isSome he0
  have hmem := minEntry_mem hp
  have hlt : g.state.game_time < t1 := hfut e1 t1 hmem
  unfold update
  rw [if_neg (by rw [hfin]; simp)]
  rw [if_neg (lt_irrefl _)]
  simp only [update_loop, hp]
  rw [if_neg (not_le.mpr hlt)]

theorem C4_quiescent_noop_witness :
    update 10 g0 none g0.state.game_time = some (.ok [], g0) :=
  C4_quiescent_noop 9 g0 rfl ⟨.Fall, 5000000000, rfl⟩
    (by
      intro e te h
      cases e <;>
        simp only [g0, st0, EventMap.insert, EventMap.clear, reduceCtorEq,
          reduceIte, Option.some.injEq] at h <;>
        (subst h; decide))

theorem update_loop_invariant (fuel : Nat) :
    ∀ (g : Game) (b : Option ButtonsPressed) (t : GameTime) (acc : List Feedback)
      (fb : List Feedback) (g' : Game),
      update_loop fuel g b t acc = some (.ok fb, g') →
      g'.state.finished = none →
      (∃ e te, g'.state.events e = some te) ∧
      (∀ e te, g'.state.events e = some te → g'.state.game_time < te) := by
  induction fuel with
  | zero =>
    intro g b t acc fb g' h _
    exact Option.noConfusion h
  | succ n ih =>
    intro g b t acc fb g' h hfin
    simp only [update_loop] at h
    cases hm : g.state.events.minEntry with
    | none =>
      rw [hm] at h
      exact Option.noConfusion h
    | some pr =>
      obtain ⟨ev, te⟩ := pr
      rw [hm] at h
      simp only at h
      by_cases hte : te ≤ t
      · rw [if_pos hte] at h
        cases hh : handle_event
            { g with state := { g.state with events := g.state.events.remove ev } } ev te with
        | none =>
          rw [hh] at h
          exact Option.noConfusion h
        | some res =>
          rw [hh] at h
          cases res with
          | error pr2 =>
            obtain ⟨go, g2⟩ := pr2
            simp only at h
            injection h with h1
            injection h1 with _ hg'
            rw [← hg'] at hfin
            exact Option.noConfusion hfin
          | ok pr2 =>
            obtain ⟨fb2, g2⟩ := pr2
            simp only at h
            split at h
            · injection h with h1
              injection h1 with _ hg'
              rw [← hg'] at hfin
              exact Option.noConfusion hfin
            · exact ih _ _ _ _ _ _ h hfin
      · rw [if_neg hte] at h
        cases b with
        | some btns =>
          simp only at h
          exact ih _ _ _ _ _ _ h hfin
        | none =>
          simp only at h
          injection h with h1
          injection h1 with _ hg'
          subst hg'
          refine ⟨⟨ev, te, minEntry_mem hm⟩, fun e' te' he' => ?_⟩
          have h1 := minEntry_le hm e' te' he'
          have h2 : t < te := not_le.mp hte
          exact lt_of_lt_of_le h2 h1

/-- Claim C9: whenever `update` returns `Ok` and the game is still
unfinished, the event map is non-empty and every pending entry is scheduled
strictly after the new game time. -/
theorem C9_pending_events_future (fuel : Nat) (g : Game)
    (b : Option ButtonsPressed) (t : GameTime) (fb : List Feedback) (g' : Game)
    (h : update fuel g b t = some (.ok fb, g'))
    (hfin : g'.state.finished = none) :
    (∃ e te, g'.state.events e = some te) ∧
    (∀ e te, g'.state.events e = some te → g'.state.game_time < te) := by
  unfold update at h
  by_cases h1 : g.state.finished.isSome = true
  · rw [if_pos h1] at h
    injection h with h2
    injection h2 with ha _
    exact Except.noConfusion ha
  · rw [if_neg h1] at h
    by_cases h2 : t < g.state.game_time
    · rw [if_pos h2] at h
      injection h with h3
      injection h3 with ha _
      exact Except.noConfusion ha
    · rw [if_neg h2] at h
      exact update_loop_invariant fuel g b t [] fb g' h hfin

theorem C9_pending_events_future_witness :
    (∃ e te, g0.state.events e = some te) ∧
    (∀ e te, g0.state.events e = some te → g0.state.game_time < te) :=
  C9_pending_events_future 10 g0 none 0 [] g0 rfl rfl

/-- Claim C8 (counterexample): with the earliest pending event (`Fall` at 5 s)
strictly after the target time 1 s, pressing soft-drop makes the differencer
insert `SoftDrop` at the target time — but the same `update` call then
dispatches it: afterwards no `SoftDrop` is pending, the `Fall` event has been
rescheduled by the soft-drop handler, and the active piece has moved down one
cell, while the claim says such events stay pending undispatched. -/
theorem C8_counterexample :
    (handle_input_events g0.state.events g0.state.buttons_pressed sdButtons
        1000000000) Event.SoftDrop = some 1000000000 ∧
    (updateOk (update 10 g0 (some sdButtons) 1000000000)).map
        (fun x => (x.2.state.events Event.SoftDrop, x.2.state.events Event.Fall,
          x.2.state.active_piece_data.map fun pd => pd.1.pos.2))
      = some (none, some 1066666666, some 24) :=
  ⟨by decide, by decide⟩

/-- Claim C8 (amended): when the earliest pending event lies strictly after
`target_time`, a provided button state with an active piece makes the loop run
the input differencer and then continue — the call proceeds exactly like a
fresh `update` from the differenced state with the buttons consumed, so events
the differencer inserted at `target_time` are dispatched within the same
`update` call rather than staying pending. -/
theorem C8_input_branch_continues (fuel : Nat) (g : Game) (b : ButtonsPressed)
    (t : GameTime) (e0 : Event) (t0 : GameTime)
    (hfin : g.state.finished = none)
    (htime : g.state.game_time ≤ t)
    (hmin : g.state.events.minEntry = some (e0, t0))
    (hfut : t < t0)
    (hact : g.state.active_piece_data.isSome = true) :
    update (fuel + 1) g (some b) t = update fuel (inputApplied g b t) none t := by
  have hfin2 : (inputApplied g b t).state.finished = none := hfin
  have hL : update (fuel + 1) g (some b) t = update_loop (fuel + 1) g (some b) t [] := by
    unfold update
    rw [if_neg (by rw [hfin]; simp), if_neg (not_lt.mpr htime)]
  have hR : update fuel (inputApplied g b t) none t =
      update_loop fuel (inputApplied g b t) none t [] := by
    unfold update
    rw [if_neg (by rw [hfin2]; simp)]
    rw [if_neg (show ¬t < (inputApplied g b t).state.game_time from lt_irrefl t)]
  rw [hL, hR]
  simp only [update_loop, hmin]
  rw [if_neg (not_le.mpr hfut)]
  simp only [hact, if_true]
  rfl

theorem C8_input_branch_continues_witness :
    update 10 g0 (some hdButtons) 1000000000 =
      update 9 (inputApplied g0 hdButtons 1000000000) none 1000000000 :=
  C8_input_branch_continues 9 g0 hdButtons 1000000000 .Fall 5000000000 rfl
    (by decide) rfl (by decide) rfl

end Tetrs
